import Mathlib

/-
  Verification of the insight theme reconciliation logic of the Aera
  journaling application (`generateInsights` / `getInsights` in the
  insights module, together with the `check_prominence_score` database
  constraint from the migrations).

  The stateful TypeScript orchestration is shallowly embedded as pure
  Lean functions: the database of retained themes is a list of rows,
  the per-candidate loop is a fold over an explicit run state, and the
  fallible stages (entry fetch, extraction call, JSON parse) are inputs
  of `Except` / `Option` type.  Persistence writes are modeled as
  succeeding exactly when the written row satisfies the
  `check_prominence_score` constraint (1 ≤ score ≤ 100), the only table
  constraint the written fields can violate.
-/

set_option maxRecDepth 8000

namespace Aera

/-- Retained insight row (the `Theme` interface of the insights module,
persisted in the `insights` table).  The opaque uuid `id` is modeled as a
natural; the ISO `created_at` timestamp is modeled as a natural ordered
chronologically; `last_updated` is kept as the raw string the code writes.
The `user_id` column is fixed to the single user of a run and omitted. -/
structure Theme where
  id : Nat
  title : String
  summary : String
  quotes : List String
  prominence_score : Int
  last_updated : String
  created_at : Nat
deriving DecidableEq

/-- Candidate theme produced by one extraction run (the element shape of
`InsightAnalysis.themes`): `prominence_score?` is optional, hence `Option`. -/
structure CandidateTheme where
  title : String
  summary : String
  quotes : List String
  prominence_score : Option Int
deriving DecidableEq

/-- JavaScript truthiness of the optional numeric field
`theme.prominence_score`: `undefined` and `0` are falsy. -/
def numTruthy : Option Int → Bool
  | none => false
  | some s => s != 0

/-- JavaScript `x || d` for the optional numeric `x`: the default is taken
when `x` is `undefined` or `0`. -/
def jsOr : Option Int → Int → Int
  | none, d => d
  | some s, d => if s = 0 then d else s

/-- JavaScript `x || 0` for a numeric field that is statically present
(the `prominence_score` of a persisted `Theme`). -/
def intOr0 (s : Int) : Int := if s = 0 then 0 else s

/-- Filter `theme => theme.prominence_score && theme.prominence_score > 0`
applied to the extracted themes before sorting. -/
def candidateKept (c : CandidateTheme) : Bool :=
  numTruthy c.prominence_score && decide (0 < jsOr c.prominence_score 0)

/-- Stable insertion used to model `Array.prototype.sort` (stable per the
ECMAScript specification): `keep y x` says the already placed element `y`
stays in front of the incoming element `x`. -/
def insertKeep (keep : α → α → Bool) (x : α) : List α → List α
  | [] => [x]
  | y :: ys => if keep y x then y :: insertKeep keep x ys else x :: y :: ys

/-- Stable sort: insert the elements in their original order. -/
def sortStable (keep : α → α → Bool) (l : List α) : List α :=
  l.foldl (fun acc x => insertKeep keep x acc) []

/-- Comparator `(a, b) => (b.prominence_score || 0) - (a.prominence_score || 0)`
(descending by score): `a` stays in front of the later `b` when the
comparator is nonpositive. -/
def candDescKeep (a b : CandidateTheme) : Bool :=
  decide (jsOr b.prominence_score 0 ≤ jsOr a.prominence_score 0)

/-- Comparator `(a, b) => (a.prominence_score || 0) - (b.prominence_score || 0)`
(ascending by score) used on the eviction candidates. -/
def themeAscKeep (a b : Theme) : Bool :=
  decide (intOr0 a.prominence_score ≤ intOr0 b.prominence_score)

/-- Sorted, filtered candidate list `sortedNewThemes` of `generateInsights`. -/
def sortedNewThemes (themes : List CandidateTheme) : List CandidateTheme :=
  sortStable candDescKeep (themes.filter candidateKept)

/-- JavaScript `s.toLowerCase()`, modeled characterwise (the titles involved
are plain text, where `toLowerCase` lowercases each character). -/
def lowerStr (s : String) : String := ⟨s.data.map Char.toLower⟩

/-- Lookup in `existingThemesByTitle`, the `Map` keyed by
`theme.title.toLowerCase()`.  A JavaScript `Map` built from a list of pairs
keeps the LAST entry for a duplicated key, so the model searches the list
from the end. -/
def lowerTitleMap (existing : List Theme) (key : String) : Option Theme :=
  existing.reverse.find? (fun t => lowerStr t.title == key)

/-- Database constraint `check_prominence_score`
(`prominence_score >= 1 AND prominence_score <= 100`) from the migration
adding the column; an insert or update row write succeeds iff it holds. -/
def scoreOk (s : Int) : Bool := decide (1 ≤ s) && decide (s ≤ 100)

/-- Eviction-eligible themes:
`existingThemes.filter(theme => !updatedThemes.includes(theme.title))`. -/
def eligibleForEviction (existing : List Theme) (updatedTitles : List String) :
    List Theme :=
  existing.filter (fun t => !(updatedTitles.contains t.title))

/-- The list `themesToReplace`: eligible themes sorted ascending by score. -/
def themesToReplace (existing : List Theme) (updatedTitles : List String) :
    List Theme :=
  sortStable themeAscKeep (eligibleForEviction existing updatedTitles)

/-- The element `themesToReplace[0]` when the list is nonempty. -/
def evictionTarget (existing : List Theme) (updatedTitles : List String) :
    Option Theme :=
  (themesToReplace existing updatedTitles).head?

/-- Mutable state of one reconciliation run: the table rows, the
`updatedThemes` and `newThemes` title accumulators, and the next fresh row
id (modeling `gen_random_uuid`). -/
structure RunState where
  db : List Theme
  updatedTitles : List String
  newTitles : List String
  nextId : Nat
deriving DecidableEq

/-- The `update` write of the match branch: overwrite summary, quotes,
score and `last_updated` of the row with the matched id. -/
def applyUpdate (db : List Theme) (rid : Nat) (c : CandidateTheme)
    (now : String) : List Theme :=
  db.map fun t =>
    if t.id = rid then
      { t with summary := c.summary, quotes := c.quotes,
               prominence_score := jsOr c.prominence_score 50,
               last_updated := now }
    else t

/-- The `update` write of the eviction branch: additionally overwrite the
title (replace-in-place under the same row id). -/
def applyReplace (db : List Theme) (rid : Nat) (c : CandidateTheme)
    (now : String) : List Theme :=
  db.map fun t =>
    if t.id = rid then
      { t with title := c.title, summary := c.summary, quotes := c.quotes,
               prominence_score := jsOr c.prominence_score 50,
               last_updated := now }
    else t

/-- One iteration of the `for (const newTheme of sortedNewThemes)` loop of
`generateInsights`.  A failed write (constraint violation) is logged by the
source and leaves the accumulators untouched. -/
def processCandidate (existing : List Theme) (now : String) (createdNow : Nat)
    (st : RunState) (c : CandidateTheme) : RunState :=
  match lowerTitleMap existing (lowerStr c.title) with
  | some existingTheme =>
    if scoreOk (jsOr c.prominence_score 50) then
      { st with db := applyUpdate st.db existingTheme.id c now,
                updatedTitles := st.updatedTitles ++ [c.title] }
    else st
  | none =>
    if 10 ≤ existing.length then
      match evictionTarget existing st.updatedTitles with
      | none => st
      | some target =>
        if intOr0 target.prominence_score < jsOr c.prominence_score 0 then
          if scoreOk (jsOr c.prominence_score 50) then
            { st with db := applyReplace st.db target.id c now,
                      newTitles := st.newTitles ++ [c.title] }
          else st
        else st
    else
      if scoreOk (jsOr c.prominence_score 50) then
        { st with
          db := st.db ++ [{ id := st.nextId, title := c.title,
                            summary := c.summary, quotes := c.quotes,
                            prominence_score := jsOr c.prominence_score 50,
                            last_updated := now, created_at := createdNow }],
          newTitles := st.newTitles ++ [c.title],
          nextId := st.nextId + 1 }
      else st

/-- The whole reconciliation loop of `generateInsights`, starting from the
freshly read snapshot `existing` of the user's retained themes. -/
def reconcile (existing : List Theme) (themes : List CandidateTheme)
    (now : String) (createdNow : Nat) (nextId : Nat) : RunState :=
  (sortedNewThemes themes).foldl (processCandidate existing now createdNow)
    { db := existing, updatedTitles := [], newTitles := [], nextId := nextId }

/-- Journal entry as fetched for analysis (only the fields the code reads). -/
structure Entry where
  content : String
  entry_date : String
deriving DecidableEq

/-- Parsed shape of the extraction response; the `themes` field of the
parsed JSON may be absent (`!insightAnalysis.themes`). -/
structure InsightAnalysis where
  themes : Option (List CandidateTheme)
deriving DecidableEq

/-- Outcome of one `generateInsights` call: the thrown error or the final
run state, together with whether the extraction service was invoked. -/
structure GenOutcome where
  result : Except String RunState
  apiInvoked : Bool

/-- Orchestration of `generateInsights`.  The entry fetch is an
`Except`-valued input (`entriesError`, then possibly-null `entries`); the
extraction call plus the regex/JSON parse of its text is an input oracle:
`Except.error` is `apiError`, `Except.ok none` is a response text that could
not be parsed into the expected JSON shape, and `Except.ok (some a)` is a
successfully parsed `InsightAnalysis`. -/
def generateInsights (existing : List Theme)
    (entriesResult : Except String (Option (List Entry)))
    (apiResult : Except String (Option InsightAnalysis))
    (now : String) (createdNow : Nat) (nextId : Nat) : GenOutcome :=
  match entriesResult with
  | .error m => ⟨.error ("Failed to fetch journal entries: " ++ m), false⟩
  | .ok entriesOpt =>
    match entriesOpt with
    | none =>
      ⟨.error "Need at least 5 journal entries to generate meaningful insights",
        false⟩
    | some entries =>
      if entries.length < 5 then
        ⟨.error "Need at least 5 journal entries to generate meaningful insights",
          false⟩
      else
        match apiResult with
        | .error m => ⟨.error ("AI analysis failed: " ++ m), true⟩
        | .ok none => ⟨.error "Failed to parse insights from AI response", true⟩
        | .ok (some analysis) =>
          match analysis.themes with
          | none => ⟨.error "No themes identified in the analysis", true⟩
          | some ts =>
            if ts.length = 0 then
              ⟨.error "No themes identified in the analysis", true⟩
            else ⟨.ok (reconcile existing ts now createdNow nextId), true⟩

/-- Retained theme rows after a call: unchanged when the call threw. -/
def themesAfter (existing : List Theme) (o : GenOutcome) : List Theme :=
  match o.result with
  | .error _ => existing
  | .ok st => st.db

/-- Row ordering of `getInsights`:
`order by prominence_score desc, created_at asc`.  An earlier row has a
strictly larger score, or an equal score and a no-later creation time. -/
def giOrder (a b : Theme) : Prop :=
  b.prominence_score < a.prominence_score ∨
    (a.prominence_score = b.prominence_score ∧ a.created_at ≤ b.created_at)

instance : DecidableRel giOrder := fun a b => by
  unfold giOrder
  exact inferInstance

/-- Unfolding lemma: the JavaScript `x || 0` on a present numeric field is
the identity. -/
theorem intOr0_eq (s : Int) : intOr0 s = s := by
  unfold intOr0
  split <;> omega

/-- Unfolding lemma for the ascending eviction comparator. -/
theorem themeAscKeep_true {a b : Theme} :
    themeAscKeep a b = true ↔ a.prominence_score ≤ b.prominence_score := by
  simp [themeAscKeep, intOr0_eq]

/-- Effect of one stable insertion on the head of a list. -/
def headStep (keep : α → α → Bool) : Option α → α → Option α
  | none, x => some x
  | some y, x => some (if keep y x then y else x)

theorem insertKeep_head (keep : α → α → Bool) (x : α) (l : List α) :
    (insertKeep keep x l).head? = headStep keep l.head? x := by
  cases l with
  | nil => rfl
  | cons y ys =>
    by_cases h : keep y x = true
    · simp [insertKeep, headStep, h]
    · simp [insertKeep, headStep, h]

theorem sortStable_head_fold (keep : α → α → Bool) (l : List α) :
    ∀ acc : List α,
      (l.foldl (fun a x => insertKeep keep x a) acc).head? =
        l.foldl (headStep keep) acc.head? := by
  induction l with
  | nil => intro acc; rfl
  | cons x xs ih =>
    intro acc
    simp only [List.foldl]
    rw [ih (insertKeep keep x acc), insertKeep_head]

theorem sortStable_head (keep : α → α → Bool) (l : List α) :
    (sortStable keep l).head? = l.foldl (headStep keep) none := by
  simpa using sortStable_head_fold keep l []

/-- Folding the head step over a list starting from `some m` yields a
minimal element of `m :: l` (with respect to prominence score). -/
theorem headFold_min (l : List Theme) :
    ∀ m : Theme, ∃ m',
      l.foldl (headStep themeAscKeep) (some m) = some m' ∧
      m' ∈ m :: l ∧ m'.prominence_score ≤ m.prominence_score ∧
      ∀ x ∈ l, m'.prominence_score ≤ x.prominence_score := by
  induction l with
  | nil =>
    intro m
    exact ⟨m, rfl, List.mem_cons_self m [], le_refl _, by simp⟩
  | cons x xs ih =>
    intro m
    simp only [List.foldl]
    by_cases h : themeAscKeep m x = true
    · have hmx : m.prominence_score ≤ x.prominence_score := themeAscKeep_true.mp h
      obtain ⟨m', hf, hmem, hle, hall⟩ := ih m
      refine ⟨m', ?_, ?_, hle, ?_⟩
      · simpa [headStep, h] using hf
      · rcases List.mem_cons.mp hmem with hm | hm
        · exact hm ▸ List.mem_cons_self _ _
        · exact List.mem_cons_of_mem _ (List.mem_cons_of_mem _ hm)
      · intro y hy
        rcases List.mem_cons.mp hy with hy | hy
        · exact hy ▸ le_trans hle hmx
        · exact hall y hy
    · have hxm : x.prominence_score < m.prominence_score := by
        have hnot : ¬ m.prominence_score ≤ x.prominence_score :=
          fun hc => h (themeAscKeep_true.mpr hc)
        omega
      obtain ⟨m', hf, hmem, hle, hall⟩ := ih x
      refine ⟨m', ?_, ?_, le_of_lt (lt_of_le_of_lt hle hxm), ?_⟩
      · simpa [headStep, h] using hf
      · exact List.mem_cons_of_mem _ hmem
      · intro y hy
        rcases List.mem_cons.mp hy with hy | hy
        · exact hy ▸ hle
        · exact hall y hy

/-- Stability of the head fold: when the list is in `getInsights` order,
the produced minimum has the earliest creation time among the elements
sharing its (minimal) prominence score. -/
theorem headFold_firstMin :
    ∀ l : List Theme, l.Pairwise giOrder →
      ∀ m : Theme, (∀ x ∈ l, giOrder m x) →
        ∀ m', l.foldl (headStep themeAscKeep) (some m) = some m' →
          ∀ u ∈ m :: l, u.prominence_score = m'.prominence_score →
            m'.created_at ≤ u.created_at := by
  intro l
  induction l with
  | nil =>
    intro _ m _ m' hf u hu hscore
    simp only [List.foldl] at hf
    obtain rfl : m = m' := Option.some.inj hf
    rcases List.mem_cons.mp hu with rfl | hu
    · exact le_refl _
    · simp at hu
  | cons x xs ih =>
    intro hp m hall m' hf u hu hscore
    have hpx : ∀ y ∈ xs, giOrder x y := (List.pairwise_cons.mp hp).1
    have hpxs : xs.Pairwise giOrder := (List.pairwise_cons.mp hp).2
    simp only [List.foldl] at hf
    by_cases h : themeAscKeep m x = true
    · have hmx : m.prominence_score ≤ x.prominence_score := themeAscKeep_true.mp h
      rw [show headStep themeAscKeep (some m) x = some m by simp [headStep, h]] at hf
      have ihm := ih hpxs m (fun y hy => hall y (List.mem_cons_of_mem _ hy)) m' hf
      obtain ⟨m'', hf'', _, hle'', _⟩ := headFold_min xs m
      rw [hf] at hf''
      obtain rfl : m' = m'' := Option.some.inj hf''
      rcases List.mem_cons.mp hu with rfl | hu
      · exact ihm u (List.mem_cons_self _ _) hscore
      rcases List.mem_cons.mp hu with rfl | hu
      · have hgx : giOrder m u := hall u (List.mem_cons_self _ _)
        rcases hgx with hlt | ⟨heq, hca⟩
        · omega
        · have hm'm : m'.created_at ≤ m.created_at :=
            ihm m (List.mem_cons_self _ _) (by omega)
          exact le_trans hm'm hca
      · exact ihm u (List.mem_cons_of_mem _ hu) hscore
    · have hxm : x.prominence_score < m.prominence_score := by
        have hnot : ¬ m.prominence_score ≤ x.prominence_score :=
          fun hc => h (themeAscKeep_true.mpr hc)
        omega
      rw [show headStep themeAscKeep (some m) x = some x by simp [headStep, h]] at hf
      have ihx := ih hpxs x hpx m' hf
      obtain ⟨m'', hf'', _, hle'', _⟩ := headFold_min xs x
      rw [hf] at hf''
      obtain rfl : m' = m'' := Option.some.inj hf''
      rcases List.mem_cons.mp hu with rfl | hu
      · omega
      · exact ihx u hu hscore

/-- An eviction target is an eligible theme of minimal prominence score. -/
theorem evictionTarget_spec (existing : List Theme) (updatedTitles : List String)
    (t : Theme) (ht : evictionTarget existing updatedTitles = some t) :
    t ∈ eligibleForEviction existing updatedTitles ∧
      ∀ u ∈ eligibleForEviction existing updatedTitles,
        t.prominence_score ≤ u.prominence_score := by
  unfold evictionTarget themesToReplace at ht
  rw [sortStable_head] at ht
  cases hel : eligibleForEviction existing updatedTitles with
  | nil => rw [hel] at ht; simp at ht
  | cons e es =>
    rw [hel] at ht
    simp only [List.foldl, headStep] at ht
    obtain ⟨m', hf, hmem, hle, hall⟩ := headFold_min es e
    rw [hf] at ht
    obtain rfl : t = m' := (Option.some.inj ht).symm
    refine ⟨hmem, ?_⟩
    intro u hu
    rcases List.mem_cons.mp hu with rfl | hu
    · exact hle
    · exact hall u hu

/-- A nonempty eligible list has an eviction target. -/
theorem evictionTarget_of_ne_nil (existing : List Theme)
    (updatedTitles : List String)
    (h : eligibleForEviction existing updatedTitles ≠ []) :
    ∃ t, evictionTarget existing updatedTitles = some t := by
  unfold evictionTarget themesToReplace
  rw [sortStable_head]
  cases hel : eligibleForEviction existing updatedTitles with
  | nil => exact absurd hel h
  | cons e es =>
    simp only [List.foldl, headStep]
    obtain ⟨m', hf, _, _, _⟩ := headFold_min es e
    exact ⟨m', hf⟩

/-- On a snapshot in `getInsights` order, the eviction target has the
earliest creation time among the eligible themes tied at its score. -/
theorem evictionTarget_tiebreak (existing : List Theme)
    (updatedTitles : List String) (hp : existing.Pairwise giOrder) (t : Theme)
    (ht : evictionTarget existing updatedTitles = some t) :
    ∀ u ∈ eligibleForEviction existing updatedTitles,
      u.prominence_score = t.prominence_score → t.created_at ≤ u.created_at := by
  have hpe : (eligibleForEviction existing updatedTitles).Pairwise giOrder := by
    unfold eligibleForEviction
    exact hp.filter _
  unfold evictionTarget themesToReplace at ht
  rw [sortStable_head] at ht
  cases hel : eligibleForEviction existing updatedTitles with
  | nil => rw [hel] at ht; simp at ht
  | cons e es =>
    rw [hel] at ht hpe
    simp only [List.foldl, headStep] at ht
    have hpx : ∀ y ∈ es, giOrder e y := (List.pairwise_cons.mp hpe).1
    have hpes : es.Pairwise giOrder := (List.pairwise_cons.mp hpe).2
    intro u hu hscore
    exact headFold_firstMin es hpes e hpx t ht u hu hscore


/-- Concrete retained theme row used by the example scenarios. -/
def mkTheme (i : Nat) (ti : String) (s : Int) (ca : Nat) : Theme :=
  { id := i, title := ti, summary := "s", quotes := [], prominence_score := s,
    last_updated := "t0", created_at := ca }

/-- Concrete extracted candidate used by the example scenarios. -/
def mkCand (ti : String) (s : Int) : CandidateTheme :=
  { title := ti, summary := "cs", quotes := [], prominence_score := some s }

/-- Snapshot for the C1 scenario: nine retained themes. -/
def exC1 : List Theme :=
  [mkTheme 1 "t one" 100 1, mkTheme 2 "t two" 90 2, mkTheme 3 "t three" 80 3,
   mkTheme 4 "t four" 70 4, mkTheme 5 "t five" 60 5, mkTheme 6 "t six" 50 6,
   mkTheme 7 "t seven" 40 7, mkTheme 8 "t eight" 30 8, mkTheme 9 "t nine" 20 9]

/-- Candidates for the C1 scenario: two unmatched, both kept by the filter. -/
def candsC1 : List CandidateTheme :=
  [mkCand "brand new x" 50, mkCand "brand new y" 40]

/-- C1: the claimed cardinality invariant fails on the code.  Starting from
nine retained themes (≤ 10) and two unmatched filtered candidates, the
10-theme limit is checked against the stale in-memory snapshot length (9)
for every candidate, so both candidates are inserted and the run ends with
ELEVEN retained rows, exceeding the cap. -/
theorem c1_cardinality_exceeded :
    exC1.length = 9 ∧
    (reconcile exC1 candsC1 "t1" 10 100).db.length = 11 := by
  constructor
  · rfl
  · decide

/-- Entries fixture for the C2 scenario: exactly five journal entries. -/
def entriesC2 : List Entry :=
  [⟨"e1", "d1"⟩, ⟨"e2", "d2"⟩, ⟨"e3", "d3"⟩, ⟨"e4", "d4"⟩, ⟨"e5", "d5"⟩]

/-- C2 counterexample: when extraction succeeds but returns zero themes,
`generateInsights` does NOT complete as a valid empty run — it throws
`No themes identified in the analysis`. -/
theorem c2_zero_themes_throws :
    (generateInsights [] (Except.ok (some entriesC2))
        (Except.ok (some ⟨some []⟩)) "t1" 10 100).result =
      Except.error "No themes identified in the analysis" := rfl

/-- C2 amended: a successful extraction returning zero themes makes the run
fail with the error `No themes identified in the analysis`; no theme write
is performed, so the retained set is unchanged. -/
theorem c2_amended_zero_themes_fail (existing : List Theme)
    (entries : List Entry) (now : String) (createdNow nextId : Nat)
    (h5 : 5 ≤ entries.length) :
    (generateInsights existing (Except.ok (some entries))
        (Except.ok (some ⟨some []⟩)) now createdNow nextId).result =
      Except.error "No themes identified in the analysis" ∧
    themesAfter existing
        (generateInsights existing (Except.ok (some entries))
          (Except.ok (some ⟨some []⟩)) now createdNow nextId) = existing := by
  have hlt : ¬ entries.length < 5 := by omega
  constructor <;> simp [generateInsights, themesAfter, hlt]

/-- Witness for the amended C2 at the concrete five-entry fixture. -/
theorem c2_amended_witness :
    5 ≤ entriesC2.length ∧
    (generateInsights [] (Except.ok (some entriesC2))
        (Except.ok (some ⟨some []⟩)) "t1" 10 100).result =
      Except.error "No themes identified in the analysis" :=
  ⟨by decide,
    (c2_amended_zero_themes_fail [] entriesC2 "t1" 10 100 (by decide)).1⟩

/-- Snapshot for the C3 scenario: ten retained themes; the lowest scorer is
titled `fear of failure` (stored lowercase) with row id 1. -/
def exC3 : List Theme :=
  [mkTheme 2 "t two" 100 2, mkTheme 3 "t three" 90 3, mkTheme 4 "t four" 80 4,
   mkTheme 5 "t five" 70 5, mkTheme 6 "t six" 60 6, mkTheme 7 "t seven" 50 7,
   mkTheme 8 "t eight" 40 8, mkTheme 9 "t nine" 30 9, mkTheme 10 "t ten" 20 10,
   mkTheme 1 "fear of failure" 10 1]

/-- Candidates for the C3 scenario: the first matches row 1
case-insensitively (different case), the second is unmatched. -/
def candsC3 : List CandidateTheme :=
  [mkCand "Fear Of Failure" 95, mkCand "Brand New Theme" 90]

/-- C3: the run protection fails on the code.  Candidate `Fear Of Failure`
matches and updates row 1 (stored title `fear of failure`), yet the later
unmatched candidate still selects row 1 as its eviction target and
overwrites it: the `updatedThemes` accumulator records the candidate's
title, and the eviction filter compares it case-SENSITIVELY against the
stored title, so the case-insensitively matched theme is not protected. -/
theorem c3_updated_theme_evicted :
    lowerTitleMap exC3 (lowerStr "Fear Of Failure") =
      some (mkTheme 1 "fear of failure" 10 1) ∧
    (reconcile exC3 candsC3 "t1" 11 100).updatedTitles = ["Fear Of Failure"] ∧
    ((reconcile exC3 candsC3 "t1" 11 100).db.filter
        (fun t => t.id == 1)).map (fun t => t.title) = ["Brand New Theme"] := by
  refine ⟨by decide, by decide, by decide⟩


/-- C4: with a full set of ten untouched existing themes and an unmatched
candidate, the chosen eviction target is an existing theme of minimal
prominence score; the candidate replaces exactly that theme's row only when
its score is strictly greater (and the write passes the score constraint),
and otherwise the run state is unchanged (the candidate is skipped). -/
theorem c4_eviction_lowest_strict (existing : List Theme) (c : CandidateTheme)
    (st : RunState) (now : String) (createdNow : Nat)
    (hlen : existing.length = 10)
    (hnm : lowerTitleMap existing (lowerStr c.title) = none)
    (hupd : st.updatedTitles = []) :
    ∃ t, evictionTarget existing st.updatedTitles = some t ∧ t ∈ existing ∧
      (∀ u ∈ existing, t.prominence_score ≤ u.prominence_score) ∧
      (jsOr c.prominence_score 0 ≤ t.prominence_score →
        processCandidate existing now createdNow st c = st) ∧
      (t.prominence_score < jsOr c.prominence_score 0 →
        scoreOk (jsOr c.prominence_score 50) = true →
        processCandidate existing now createdNow st c =
          { st with db := applyReplace st.db t.id c now,
                    newTitles := st.newTitles ++ [c.title] }) := by
  have hel : eligibleForEviction existing st.updatedTitles = existing := by
    simp [eligibleForEviction, hupd]
  have hne : eligibleForEviction existing st.updatedTitles ≠ [] := by
    rw [hel]
    intro h0
    rw [h0] at hlen
    simp at hlen
  obtain ⟨t, ht⟩ := evictionTarget_of_ne_nil existing st.updatedTitles hne
  obtain ⟨hmem, hmin⟩ := evictionTarget_spec existing st.updatedTitles t ht
  rw [hel] at hmem hmin
  have hlen10 : 10 ≤ existing.length := by omega
  refine ⟨t, ht, hmem, hmin, ?_, ?_⟩
  · intro hle
    unfold processCandidate
    rw [hnm]
    simp only [if_pos hlen10, ht, intOr0_eq]
    rw [if_neg (by omega)]
  · intro hlt hok
    unfold processCandidate
    rw [hnm]
    simp only [if_pos hlen10, ht, intOr0_eq]
    rw [if_pos (by omega), if_pos hok]

/-- Ten retained themes all scoring 90 (the C4 skip example). -/
def exC4a : List Theme :=
  [mkTheme 1 "a one" 90 1, mkTheme 2 "a two" 90 2, mkTheme 3 "a three" 90 3,
   mkTheme 4 "a four" 90 4, mkTheme 5 "a five" 90 5, mkTheme 6 "a six" 90 6,
   mkTheme 7 "a seven" 90 7, mkTheme 8 "a eight" 90 8, mkTheme 9 "a nine" 90 9,
   mkTheme 10 "a ten" 90 10]

def stC4a : RunState :=
  { db := exC4a, updatedTitles := [], newTitles := [], nextId := 100 }

/-- Ten retained themes scoring 100 down to 10 (the C4 replace example);
the score-10 theme has row id 1. -/
def exC4b : List Theme :=
  [mkTheme 10 "b ten" 100 10, mkTheme 9 "b nine" 90 9, mkTheme 8 "b eight" 80 8,
   mkTheme 7 "b seven" 70 7, mkTheme 6 "b six" 60 6, mkTheme 5 "b five" 50 5,
   mkTheme 4 "b four" 40 4, mkTheme 3 "b three" 30 3, mkTheme 2 "b two" 20 2,
   mkTheme 1 "b one" 10 1]

def stC4b : RunState :=
  { db := exC4b, updatedTitles := [], newTitles := [], nextId := 100 }

/-- Witness for C4 at the two example scenarios of the claim: ten themes at
score 90 skip a score-90 candidate, and ten themes scoring 10..100 have the
score-10 theme replaced by a score-95 candidate. -/
theorem c4_witness :
    exC4a.length = 10 ∧
    processCandidate exC4a "t1" 11 stC4a (mkCand "brand new" 90) = stC4a ∧
    processCandidate exC4b "t1" 11 stC4b (mkCand "brand new" 95) =
      { stC4b with db := applyReplace exC4b 1 (mkCand "brand new" 95) "t1",
                   newTitles := ["brand new"] } := by
  refine ⟨by decide, ?_, ?_⟩
  · obtain ⟨t, ht, _, _, hskip, _⟩ :=
      c4_eviction_lowest_strict exC4a (mkCand "brand new" 90) stC4a "t1" 11
        (by decide) (by decide) rfl
    have h2 : evictionTarget exC4a stC4a.updatedTitles =
        some (mkTheme 1 "a one" 90 1) := by decide
    have hteq : t = mkTheme 1 "a one" 90 1 :=
      Option.some.inj (ht.symm.trans h2)
    subst hteq
    exact hskip (by decide)
  · obtain ⟨t, ht, _, _, _, hrepl⟩ :=
      c4_eviction_lowest_strict exC4b (mkCand "brand new" 95) stC4b "t1" 11
        (by decide) (by decide) rfl
    have h2 : evictionTarget exC4b stC4b.updatedTitles =
        some (mkTheme 1 "b one" 10 1) := by decide
    have hteq : t = mkTheme 1 "b one" 10 1 :=
      Option.some.inj (ht.symm.trans h2)
    subst hteq
    rw [hrepl (by decide) (by decide)]
    rfl

/-- Snapshot for the C5 scenario, listed in `getInsights` order: the two
lowest scorers are tied at score 10, `old low` created at time 1 and
`new low` created at time 5. -/
def exC5 : List Theme :=
  [mkTheme 1 "c one" 100 3, mkTheme 2 "c two" 90 4, mkTheme 3 "c three" 80 5,
   mkTheme 4 "c four" 70 6, mkTheme 5 "c five" 60 7, mkTheme 6 "c six" 50 8,
   mkTheme 7 "c seven" 40 9, mkTheme 8 "c eight" 30 10,
   mkTheme 9 "old low" 10 1, mkTheme 10 "new low" 10 5]

def stC5 : RunState :=
  { db := exC5, updatedTitles := [], newTitles := [], nextId := 100 }

/-- C5 counterexample: with two eligible themes tied at the lowest score
the eviction target chosen IS the oldest-created one (`old low`,
created at 1), and an unmatched score-95 candidate overwrites exactly that
row — so the oldest-created theme does NOT survive eviction. -/
theorem c5_oldest_created_is_evicted :
    (mkTheme 9 "old low" 10 1).created_at <
      (mkTheme 10 "new low" 10 5).created_at ∧
    (mkTheme 9 "old low" 10 1).prominence_score =
      (mkTheme 10 "new low" 10 5).prominence_score ∧
    List.Pairwise giOrder exC5 ∧
    evictionTarget exC5 [] = some (mkTheme 9 "old low" 10 1) ∧
    ((processCandidate exC5 "t1" 11 stC5 (mkCand "brand new" 95)).db.filter
        (fun t => t.id == 9)).map (fun t => t.title) = ["brand new"] := by
  decide

/-- C5 amended: on a snapshot in `getInsights` order (score descending,
creation ascending), the eviction target has the minimal prominence score
among eligible themes, and among the themes tied at that score it is the
one with the EARLIEST `createdAt` — the oldest-created is evicted first
(the newest survives), the reverse of the claimed tie-break. -/
theorem c5_amended_oldest_among_ties_is_target (existing : List Theme)
    (updatedTitles : List String) (t : Theme)
    (hp : existing.Pairwise giOrder)
    (ht : evictionTarget existing updatedTitles = some t) :
    (∀ u ∈ eligibleForEviction existing updatedTitles,
      t.prominence_score ≤ u.prominence_score) ∧
    ∀ u ∈ eligibleForEviction existing updatedTitles,
      u.prominence_score = t.prominence_score → t.created_at ≤ u.created_at :=
  ⟨(evictionTarget_spec existing updatedTitles t ht).2,
   evictionTarget_tiebreak existing updatedTitles hp t ht⟩

/-- Witness for the amended C5 at the concrete tied snapshot. -/
theorem c5_amended_witness :
    List.Pairwise giOrder exC5 ∧
    (mkTheme 9 "old low" 10 1).created_at ≤
      (mkTheme 10 "new low" 10 5).created_at := by
  refine ⟨by decide, ?_⟩
  have h := c5_amended_oldest_among_ties_is_target exC5 []
      (mkTheme 9 "old low" 10 1) (by decide) (by decide)
  exact h.2 (mkTheme 10 "new low" 10 5) (by decide) (by decide)

/-- Snapshot for the C6 scenario: ten themes scoring 100 down to 10; the
score-10 theme has row id 1. -/
def exC6 : List Theme :=
  [mkTheme 10 "d ten" 100 10, mkTheme 9 "d nine" 90 9, mkTheme 8 "d eight" 80 8,
   mkTheme 7 "d seven" 70 7, mkTheme 6 "d six" 60 6, mkTheme 5 "d five" 50 5,
   mkTheme 4 "d four" 40 4, mkTheme 3 "d three" 30 3, mkTheme 2 "d two" 20 2,
   mkTheme 1 "d one" 10 1]

def stC6 : RunState :=
  { db := exC6, updatedTitles := [], newTitles := [], nextId := 100 }

/-- Candidates for the C6 scenario: two unmatched candidates, score 95 then
score 94. -/
def candsC6 : List CandidateTheme :=
  [mkCand "Alpha Theme" 95, mkCand "Beta Theme" 94]

/-- C6 counterexample: `Alpha Theme` (score 95) is installed onto row 1 via
the eviction path, yet the later candidate `Beta Theme` (score 94) selects
the SAME row 1 as its eviction target (the in-memory snapshot still lists
it at its stale score 10) and overwrites it, so the theme installed via the
eviction path is destroyed within the very same run. -/
theorem c6_replaced_row_evicted_again :
    (reconcile exC6 candsC6 "t1" 11 100).newTitles =
      ["Alpha Theme", "Beta Theme"] ∧
    ((reconcile exC6 candsC6 "t1" 11 100).db.filter (fun t => t.id == 1)).map
        (fun t => t.title) = ["Beta Theme"] ∧
    (reconcile exC6 candsC6 "t1" 11 100).db.all
        (fun t => t.title != "Alpha Theme") = true := by
  decide

/-- C6 amended: a theme row installed via the eviction path stays eligible
for eviction by later candidates in the same run, evaluated at its stale
pre-run score: a second unmatched candidate whose score also beats the
evicted theme's ORIGINAL score picks the same target row and replaces it
again, clobbering the first installation. -/
theorem c6_amended_stale_snapshot_retargets (existing : List Theme)
    (c1 c2 : CandidateTheme) (st : RunState) (now : String) (createdNow : Nat)
    (t : Theme)
    (hnm1 : lowerTitleMap existing (lowerStr c1.title) = none)
    (hnm2 : lowerTitleMap existing (lowerStr c2.title) = none)
    (hlen : 10 ≤ existing.length)
    (ht : evictionTarget existing st.updatedTitles = some t)
    (h1 : t.prominence_score < jsOr c1.prominence_score 0)
    (hok1 : scoreOk (jsOr c1.prominence_score 50) = true)
    (h2 : t.prominence_score < jsOr c2.prominence_score 0)
    (hok2 : scoreOk (jsOr c2.prominence_score 50) = true) :
    (processCandidate existing now createdNow st c1).updatedTitles =
      st.updatedTitles ∧
    evictionTarget existing
        (processCandidate existing now createdNow st c1).updatedTitles =
      some t ∧
    processCandidate existing now createdNow
        (processCandidate existing now createdNow st c1) c2 =
      { db := applyReplace (applyReplace st.db t.id c1 now) t.id c2 now,
        updatedTitles := st.updatedTitles,
        newTitles := (st.newTitles ++ [c1.title]) ++ [c2.title],
        nextId := st.nextId } := by
  have hst1 : processCandidate existing now createdNow st c1 =
      { st with db := applyReplace st.db t.id c1 now,
                newTitles := st.newTitles ++ [c1.title] } := by
    unfold processCandidate
    rw [hnm1]
    simp only [if_pos hlen, ht, intOr0_eq]
    rw [if_pos (by omega), if_pos hok1]
  rw [hst1]
  refine ⟨rfl, ht, ?_⟩
  unfold processCandidate
  rw [hnm2]
  have hproj : ({ st with
                  db := applyReplace st.db t.id c1 now,
                  newTitles := st.newTitles ++ [c1.title] } :
      RunState).updatedTitles = st.updatedTitles := rfl
  simp only [if_pos hlen, hproj, ht, intOr0_eq]
  rw [if_pos (by omega), if_pos hok2]

/-- Witness for the amended C6 at the concrete ten-theme snapshot. -/
theorem c6_amended_witness :
    10 ≤ exC6.length ∧
    processCandidate exC6 "t1" 11
        (processCandidate exC6 "t1" 11 stC6 (mkCand "Alpha Theme" 95))
        (mkCand "Beta Theme" 94) =
      { db := applyReplace (applyReplace exC6 1 (mkCand "Alpha Theme" 95) "t1")
                1 (mkCand "Beta Theme" 94) "t1",
        updatedTitles := [], newTitles := ["Alpha Theme", "Beta Theme"],
        nextId := 100 } := by
  refine ⟨by decide, ?_⟩
  have h := c6_amended_stale_snapshot_retargets exC6 (mkCand "Alpha Theme" 95)
      (mkCand "Beta Theme" 94) stC6 "t1" 11 (mkTheme 1 "d one" 10 1)
      (by decide) (by decide) (by decide) (by decide) (by decide) (by decide)
      (by decide) (by decide)
  rw [h.2.2]
  rfl

/-- C7: a candidate finds a match among the existing themes if and only if
some existing theme's title equals the candidate's title after lowercasing,
and any theme the lookup returns is an existing theme whose lowercased
title equals the candidate's lowercased title. -/
theorem c7_match_iff_lower_eq (existing : List Theme) (c : CandidateTheme) :
    ((lowerTitleMap existing (lowerStr c.title)).isSome ↔
      ∃ t ∈ existing, lowerStr t.title = lowerStr c.title) ∧
    ∀ t, lowerTitleMap existing (lowerStr c.title) = some t →
      t ∈ existing ∧ lowerStr t.title = lowerStr c.title := by
  constructor
  · unfold lowerTitleMap
    rw [List.find?_isSome]
    constructor
    · rintro ⟨x, hx, hp⟩
      exact ⟨x, List.mem_reverse.mp hx, by simpa using hp⟩
    · rintro ⟨x, hx, hp⟩
      exact ⟨x, List.mem_reverse.mpr hx, by simpa using hp⟩
  · intro t hfind
    unfold lowerTitleMap at hfind
    refine ⟨List.mem_reverse.mp (List.mem_of_find?_eq_some hfind), ?_⟩
    have hp := List.find?_some hfind
    simpa using hp

/-- Single stored theme for the C7 example, titled in lowercase. -/
def themeC7 : Theme := mkTheme 1 "fear of failure" 80 1

/-- Witness for C7: the candidate `Fear Of Failure` matches the stored
theme `fear of failure`, while `Fear of Failing` finds no match. -/
theorem c7_witness :
    (themeC7 ∈ [themeC7] ∧
      lowerStr themeC7.title = lowerStr (mkCand "Fear Of Failure" 90).title) ∧
    (lowerTitleMap [themeC7]
        (lowerStr (mkCand "Fear of Failing" 90).title)).isSome = false := by
  refine ⟨?_, by decide⟩
  exact (c7_match_iff_lower_eq [themeC7] (mkCand "Fear Of Failure" 90)).2
    themeC7 (by decide)

/-- C8: with fewer than five fetched journal entries `generateInsights`
fails with the insufficient-data error, never invokes the extraction
service (for ANY hypothetical service response), and leaves the retained
theme set unchanged. -/
theorem c8_insufficient_entries_gate (existing : List Theme)
    (entries : List Entry) (api : Except String (Option InsightAnalysis))
    (now : String) (createdNow nextId : Nat) (h : entries.length < 5) :
    (generateInsights existing (Except.ok (some entries)) api now createdNow
        nextId).result =
      Except.error
        "Need at least 5 journal entries to generate meaningful insights" ∧
    (generateInsights existing (Except.ok (some entries)) api now createdNow
        nextId).apiInvoked = false ∧
    themesAfter existing
        (generateInsights existing (Except.ok (some entries)) api now
          createdNow nextId) = existing := by
  refine ⟨?_, ?_, ?_⟩ <;> simp [generateInsights, themesAfter, h]

/-- Four journal entries, below the minimum corpus. -/
def entriesC8 : List Entry :=
  [⟨"e1", "d1"⟩, ⟨"e2", "d2"⟩, ⟨"e3", "d3"⟩, ⟨"e4", "d4"⟩]

/-- Witness for C8 at a four-entry corpus. -/
theorem c8_witness :
    entriesC8.length < 5 ∧
    (generateInsights [] (Except.ok (some entriesC8))
        (Except.error "network down") "t1" 10 100).apiInvoked = false :=
  ⟨by decide,
   (c8_insufficient_entries_gate [] entriesC8 (Except.error "network down")
      "t1" 10 100 (by decide)).2.1⟩

/-- C9: when the extraction response text cannot be parsed into the
expected JSON theme shape, the whole run fails with the parse error and no
theme write happens: the retained set is unchanged. -/
theorem c9_parse_failure_no_writes (existing : List Theme)
    (entries : List Entry) (now : String) (createdNow nextId : Nat)
    (h5 : 5 ≤ entries.length) :
    (generateInsights existing (Except.ok (some entries)) (Except.ok none) now
        createdNow nextId).result =
      Except.error "Failed to parse insights from AI response" ∧
    themesAfter existing
        (generateInsights existing (Except.ok (some entries)) (Except.ok none)
          now createdNow nextId) = existing := by
  have hlt : ¬ entries.length < 5 := by omega
  constructor <;> simp [generateInsights, themesAfter, hlt]

/-- Five journal entries, meeting the minimum corpus. -/
def entriesC9 : List Entry :=
  [⟨"f1", "d1"⟩, ⟨"f2", "d2"⟩, ⟨"f3", "d3"⟩, ⟨"f4", "d4"⟩, ⟨"f5", "d5"⟩]

/-- Witness for C9: an unparseable response leaves the single stored theme
untouched. -/
theorem c9_witness :
    5 ≤ entriesC9.length ∧
    themesAfter [mkTheme 1 "kept" 50 1]
        (generateInsights [mkTheme 1 "kept" 50 1]
          (Except.ok (some entriesC9)) (Except.ok none) "t1" 10 100) =
      [mkTheme 1 "kept" 50 1] :=
  ⟨by decide,
   (c9_parse_failure_no_writes [mkTheme 1 "kept" 50 1] entriesC9 "t1" 10 100
      (by decide)).2⟩

/-- Rejected write: a candidate whose written score violates the database
score constraint leaves the table rows unchanged in every branch of the
per-candidate step. -/
theorem processCandidate_db_of_reject (existing : List Theme) (now : String)
    (createdNow : Nat) (st : RunState) (c : CandidateTheme)
    (h : scoreOk (jsOr c.prominence_score 50) = false) :
    (processCandidate existing now createdNow st c).db = st.db := by
  unfold processCandidate
  split
  · simp [h]
  · split
    · split
      · rfl
      · split
        · simp [h]
        · rfl
    · simp [h]

/-- C10 counterexample: a candidate scoring 150 survives the
pre-processing filter, yet nothing is persisted — the insert is rejected by
the database constraint `check_prominence_score` (1..100), so the score is
NOT stored verbatim and an over-100 score IS rejected. -/
theorem c10_overlarge_score_rejected :
    candidateKept (mkCand "big theme" 150) = true ∧
    (reconcile [] [mkCand "big theme" 150] "t1" 11 100).db = [] := by
  decide

/-- C10 amended: every candidate surviving the filter has a present,
strictly positive score, the default-to-50 fallback is unreachable, and the
application passes the score through verbatim (no clamping); but for a
score above 100 the database constraint rejects the write, so processing
such a candidate leaves the stored rows unchanged. -/
theorem c10_amended_verbatim_until_constraint (c : CandidateTheme)
    (h : candidateKept c = true) :
    ∃ s, c.prominence_score = some s ∧ 0 < s ∧
      jsOr c.prominence_score 50 = s ∧ jsOr c.prominence_score 0 = s ∧
      (100 < s → scoreOk s = false ∧
        ∀ (existing : List Theme) (now : String) (createdNow : Nat)
          (st : RunState),
          (processCandidate existing now createdNow st c).db = st.db) := by
  rcases hc : c.prominence_score with _ | s
  · exfalso
    unfold candidateKept numTruthy at h
    rw [hc] at h
    simp at h
  · unfold candidateKept numTruthy at h
    rw [hc] at h
    simp [jsOr] at h
    obtain ⟨hs0, hpos⟩ := h
    have hposs : 0 < s := by
      by_cases h0 : s = 0
      · exact absurd h0 hs0
      · simpa [h0] using hpos
    refine ⟨s, rfl, hposs, by simp [jsOr, hs0], by simp [jsOr, hs0], ?_⟩
    intro hbig
    have hsc : scoreOk s = false := by
      unfold scoreOk
      simp
      omega
    refine ⟨hsc, ?_⟩
    intro existing now createdNow st
    have hj : scoreOk (jsOr c.prominence_score 50) = false := by
      rw [hc]
      simpa [jsOr, hs0] using hsc
    exact processCandidate_db_of_reject existing now createdNow st c hj

def stC10 : RunState :=
  { db := [], updatedTitles := [], newTitles := [], nextId := 100 }

/-- Witness for the amended C10 at score 150 on an empty retained set. -/
theorem c10_amended_witness :
    candidateKept (mkCand "big theme" 150) = true ∧
    scoreOk 150 = false ∧
    (processCandidate [] "t1" 11 stC10 (mkCand "big theme" 150)).db = [] := by
  refine ⟨by decide, ?_, ?_⟩
  · obtain ⟨s, hsome, _, _, _, hbig⟩ :=
      c10_amended_verbatim_until_constraint (mkCand "big theme" 150) (by decide)
    have hs : s = 150 := by
      have h150 : (some (150 : Int) : Option Int) = some s := hsome
      exact (Option.some.inj h150).symm
    subst hs
    exact (hbig (by norm_num)).1
  · obtain ⟨s, hsome, _, _, _, hbig⟩ :=
      c10_amended_verbatim_until_constraint (mkCand "big theme" 150) (by decide)
    have hs : s = 150 := by
      have h150 : (some (150 : Int) : Option Int) = some s := hsome
      exact (Option.some.inj h150).symm
    subst hs
    exact (hbig (by norm_num)).2 [] "t1" 11 stC10

end Aera